import Mathlib

/-!
Verification development for the fitbit-sync repository.

We give a shallow embedding of the core pieces the specification talks
about: the idempotent sample store (`store_samples` over the SQLite
`samples` table), the three intraday segmentation functions
(`processStepsData`, `processCaloriesData`, `processHeartRateData`), the
rate-limited API client (`makeAPIRequest`), the sync-log repository
(`update_sync_log`, `get_rate_limit_status`) and the orchestrator
(`syncAllData`, `syncDateRange`).

Modelling conventions:
- Per-minute datasets are lists indexed by minute; the `time` string of
  entry `i` is represented by the index `i` itself (the mapping from
  indices to ISO timestamps within one day is injective, so identity of
  emitted `datetime` values is preserved).
- JS numbers are embedded as `Nat`/`ℚ` with exact arithmetic.
- SQL NULL is `Option`; SQLite's comparison rules for UNIQUE indices
  (every NULL is distinct from everything, including other NULLs) are
  modelled explicitly.
- JS truthiness coalescing (`x || null`) is modelled by explicit
  helpers (`0`, `""`, `null`/`undefined` are falsy).
-/

namespace FitbitSync

/-! ## Persistence: the `samples` table and `SampleRepository.store_samples`

Source: `src/unnamed/part_007` (`store_samples`) and the schema in
`src/services/fitbit-service.js` (`createTables`):
`UNIQUE(type, timestamp, start_time, end_time)` with nullable
`timestamp`, `start_time`, `end_time` columns, inserted via
`INSERT OR IGNORE`. -/

/-- Value of a sample: the processors push numbers (steps, calories,
heart rate) or strings (sleep stage levels). -/
inductive SampleValue where
  | num (q : ℚ)
  | str (s : String)
deriving DecidableEq

/-- A row of the `samples` table (identity columns plus value). -/
structure SampleRow where
  type : String
  value : SampleValue
  timestamp : Option String
  start_time : Option String
  end_time : Option String
deriving DecidableEq

/-- A sample object as passed to `store_samples`: the repository reads
`sample.timestamp || sample.datetime || null` and the analogous
camelCase fallbacks for the interval fields. -/
structure SampleInput where
  type : String
  value : SampleValue
  timestamp : Option String
  datetime : Option String
  start_time : Option String
  startTime : Option String
  end_time : Option String
  endTime : Option String
deriving DecidableEq

/-- JS truthiness of a nullable string (`null`, `undefined` and `""` are falsy). -/
def truthyStr : Option String → Bool
  | some s => s ≠ ""
  | none => false

/-- JS `a || b || null` on nullable strings. -/
def jsCoalesce (a b : Option String) : Option String :=
  if truthyStr a then a else if truthyStr b then b else none

/-- The row actually bound by the prepared INSERT in `store_samples`. -/
def SampleInput.toRow (s : SampleInput) : SampleRow :=
  { type := s.type
    value := s.value
    timestamp := jsCoalesce s.timestamp s.datetime
    start_time := jsCoalesce s.start_time s.startTime
    end_time := jsCoalesce s.end_time s.endTime }

/-- SQLite comparison of one UNIQUE-index column: two entries collide on
the column only when both are non-NULL and equal; a NULL is distinct
from every value including another NULL. -/
def uniqueColEq : Option String → Option String → Bool
  | some a, some b => a == b
  | _, _ => false

/-- Whether a fresh row violates `UNIQUE(type, timestamp, start_time, end_time)`
against an existing row, under SQLite's NULL-distinct rule
(`type` is NOT NULL, so it compares plainly). -/
def samplesConflict (r s : SampleRow) : Bool :=
  r.type == s.type
    && uniqueColEq r.timestamp s.timestamp
    && uniqueColEq r.start_time s.start_time
    && uniqueColEq r.end_time s.end_time

/-- `SampleRepository.store_samples`: bulk `INSERT OR IGNORE`; a row is
ignored exactly when it conflicts with a row already in the table
(including rows inserted earlier in the same batch); returns the new
table and the count of rows actually inserted. -/
def store_samples (samples : List SampleInput) (table : List SampleRow) :
    List SampleRow × Nat :=
  samples.foldl
    (fun acc s =>
      let row := s.toRow
      if acc.1.any (fun r => samplesConflict r row) then acc
      else (acc.1 ++ [row], acc.2 + 1))
    (table, 0)

/-- A typical processor output: a point-in-time steps sample, carrying a
`datetime` and no interval fields. -/
def stepsSampleInput : SampleInput :=
  { type := "steps"
    value := .num 15
    timestamp := none
    datetime := some "2024-01-01T00:14:00.000Z"
    start_time := none
    startTime := none
    end_time := none
    endTime := none }

/-- C1: storing the same sample list twice is claimed to insert zero new
rows the second time. It does not: every processor sample populates
`timestamp` and leaves `start_time`/`end_time` NULL, and SQLite's UNIQUE
index treats each NULL as distinct, so the second `INSERT OR IGNORE` of
the identical sample conflicts with nothing and inserts one new row
again (insert count 1, not 0), leaving two identical rows in the table. -/
theorem store_samples_second_call_reinserts :
    (store_samples [stepsSampleInput] []).2 = 1 ∧
    (store_samples [stepsSampleInput]
      (store_samples [stepsSampleInput] []).1).2 = 1 ∧
    (store_samples [stepsSampleInput]
      (store_samples [stepsSampleInput] []).1).1 =
      [stepsSampleInput.toRow, stepsSampleInput.toRow] := by
  decide

/-! ## StepBlocker: `FitbitService.processStepsData`

Source: `src/routes/api.js` lines 1052-1132. The dataset is the list of
per-minute step counts (`parseInt(dataPoint.value)`); the block state
tracks start/end minute, step total and minute count exactly as the
`currentBlock` object does. -/

/-- The `currentBlock` object of `processStepsData`: start and end are
kept as minute indices of the day. -/
structure StepBlock where
  startIdx : Nat
  endIdx : Nat
  totalSteps : Nat
  minutes : Nat
deriving DecidableEq

/-- An emitted steps sample: `{type: "steps", value, datetime}` with the
datetime given as the minute index of the block end. -/
structure StepSample where
  value : Nat
  datetime : Nat
deriving DecidableEq

/-- The zero-lookahead of the inactivity check: starting at the current
minute, count zeros in the next `min(10, remaining)` minutes stopping at
the first positive minute; the block is closed when the count reaches 10. -/
def stepsZeroLookahead (l : List Nat) : Bool :=
  10 ≤ ((l.take 10).takeWhile (fun v => v == 0)).length

/-- The main loop of `processStepsData`, instrumented to emit the whole
closing block (the source pushes `{value: totalSteps, datetime: endTime}`;
the projection is `processStepsData` below). `i` is the index of the
head of `l` in the full dataset. -/
def stepsGo : Nat → List Nat → Option StepBlock → List StepBlock
  | _, [], none => []
  | _, [], some b => [b]
  | i, v :: tl, none =>
      if 0 < v then stepsGo (i + 1) tl (some ⟨i, i, v, 1⟩)
      else stepsGo (i + 1) tl none
  | i, v :: tl, some b =>
      if 0 < v then
        let b2 : StepBlock := ⟨b.startIdx, i, b.totalSteps + v, b.minutes + 1⟩
        if 15 ≤ b2.minutes then
          b2 :: stepsGo (i + 1) tl (some ⟨i, i, v, 1⟩)
        else
          stepsGo (i + 1) tl (some b2)
      else
        if stepsZeroLookahead (v :: tl) then
          b :: stepsGo (i + 1) tl none
        else
          stepsGo (i + 1) tl (some b)

/-- The blocks closed by `processStepsData`, in emission order. -/
def processStepsBlocks (d : List Nat) : List StepBlock :=
  stepsGo 0 d none

/-- `FitbitService.processStepsData`: the emitted samples. -/
def processStepsData (d : List Nat) : List StepSample :=
  (processStepsBlocks d).map fun b => ⟨b.totalSteps, b.endIdx⟩

/-! ### Separation of emitted step blocks (claim C5) -/

/-- `gapBetween d a b`: at least 10 consecutive zero-step minutes of `d`
lie strictly between minute `a` and minute `b`. -/
def gapBetween (d : List Nat) (a b : Nat) : Prop :=
  ∃ k < b, a < k ∧ k + 10 ≤ b ∧ ∀ m < 10, d.getD (k + m) 1 = 0

instance gapBetweenDecidable (d : List Nat) (a b : Nat) :
    Decidable (gapBetween d a b) := by
  unfold gapBetween
  infer_instance

/-- The separation `processStepsData` actually guarantees between two
consecutively emitted blocks: either the second block was started by the
15-minute split at the very minute that ended the first block, or at
least 10 consecutive zero minutes lie between them. -/
def splitOrGap (d : List Nat) (b1 b2 : StepBlock) : Prop :=
  b2.startIdx = b1.endIdx ∨ gapBetween d b1.endIdx b2.startIdx

/-- A zero-lookahead count of at least `n` means the list has at least
`n` entries and its first `n` entries are all zero. -/
theorem takeWhile_zero_bound :
    ∀ (n : Nat) (l : List Nat),
      n ≤ ((l.take n).takeWhile (fun v => v == 0)).length →
      n ≤ l.length ∧ ∀ m < n, l.getD m 1 = 0 := by
  intro n
  induction n with
  | zero =>
    intro l _
    exact ⟨Nat.zero_le _, fun m hm => absurd hm (Nat.not_lt_zero m)⟩
  | succ n ih =>
    intro l h
    match l with
    | [] => simp at h
    | x :: xs =>
      rw [List.take_succ_cons] at h
      by_cases hx : x = 0
      · subst hx
        rw [List.takeWhile_cons_of_pos (by simp)] at h
        simp only [List.length_cons] at h
        obtain ⟨h1, h2⟩ := ih xs (by omega)
        refine ⟨by simp; omega, ?_⟩
        intro m hm
        match m with
        | 0 => simp
        | m + 1 =>
          rw [List.getD_cons_succ]
          exact h2 m (by omega)
      · rw [List.takeWhile_cons_of_neg (by simpa using hx)] at h
        simp at h

/-- An open block is never discarded: the run continued with block `b`
eventually emits a first block, and that block starts where `b` starts. -/
theorem stepsGo_some_head :
    ∀ (l : List Nat) (i : Nat) (b : StepBlock),
      ∃ h t, stepsGo i l (some b) = h :: t ∧ h.startIdx = b.startIdx := by
  intro l
  induction l with
  | nil => exact fun i b => ⟨b, [], rfl, rfl⟩
  | cons v tl ih =>
    intro i b
    by_cases hv : 0 < v
    · by_cases hsplit : 15 ≤ b.minutes + 1
      · exact ⟨⟨b.startIdx, i, b.totalSteps + v, b.minutes + 1⟩,
          stepsGo (i + 1) tl (some ⟨i, i, v, 1⟩),
          by simp [stepsGo, hv, hsplit], rfl⟩
      · obtain ⟨h, t, heq, hs⟩ :=
          ih (i + 1) ⟨b.startIdx, i, b.totalSteps + v, b.minutes + 1⟩
        exact ⟨h, t, by simp [stepsGo, hv, hsplit, heq], hs⟩
    · by_cases hla : stepsZeroLookahead (v :: tl)
      · exact ⟨b, stepsGo (i + 1) tl none, by simp [stepsGo, hv, hla], rfl⟩
      · obtain ⟨h, t, heq, hs⟩ := ih (i + 1) b
        exact ⟨h, t, by simp [stepsGo, hv, hla, heq], hs⟩

/-- With no open block, the next emitted block (if any) starts at or
after the current position, at a positive-step minute of the source. -/
theorem stepsGo_none_head (d : List Nat) :
    ∀ (l : List Nat) (i : Nat), l = d.drop i →
      ∀ h t, stepsGo i l none = h :: t →
        i ≤ h.startIdx ∧ d.getD h.startIdx 0 ≠ 0 := by
  intro l
  induction l with
  | nil => intro i _ h t heq; simp [stepsGo] at heq
  | cons v tl ih =>
    intro i hld h t heq
    have htl : tl = d.drop (i + 1) := by
      rw [← List.tail_drop, ← hld]
      rfl
    by_cases hv : 0 < v
    · have hveq : d.getD i 0 = v := by
        have hv' : d[i]? = some v := by
          rw [← List.head?_drop, ← hld]; rfl
        rw [List.getD_eq_getD_get?, List.get?_eq_getElem?, hv']
        rfl
      obtain ⟨h0, t0, heq0, hs0⟩ := stepsGo_some_head tl (i + 1) ⟨i, i, v, 1⟩
      rw [show stepsGo i (v :: tl) none = stepsGo (i + 1) tl (some ⟨i, i, v, 1⟩)
        from by simp [stepsGo, hv], heq0] at heq
      have hh : h = h0 := by injection heq with h1 h2; exact h1.symm
      subst hh
      rw [hs0]
      exact ⟨Nat.le_refl i, by rw [hveq]; omega⟩
    · rw [show stepsGo i (v :: tl) none = stepsGo (i + 1) tl none
        from by simp [stepsGo, hv]] at heq
      obtain ⟨h1, h2⟩ := ih (i + 1) htl h t heq
      exact ⟨by omega, h2⟩

/-- Invariant step: chained separation of all blocks emitted from any
reachable loop state of `processStepsData`. -/
theorem stepsGo_chain (d : List Nat) :
    ∀ (l : List Nat) (i : Nat), l = d.drop i →
      ∀ cur : Option StepBlock, (∀ b, cur = some b → b.endIdx < i) →
        List.Chain' (splitOrGap d) (stepsGo i l cur) := by
  intro l
  induction l with
  | nil =>
    intro i _ cur _
    match cur with
    | none => simp [stepsGo]
    | some b => simp [stepsGo]
  | cons v tl ih =>
    intro i hld cur hcur
    have htl : tl = d.drop (i + 1) := by
      rw [← List.tail_drop, ← hld]
      rfl
    match cur with
    | none =>
      by_cases hv : 0 < v
      · rw [show stepsGo i (v :: tl) none = stepsGo (i + 1) tl (some ⟨i, i, v, 1⟩)
          from by simp [stepsGo, hv]]
        exact ih (i + 1) htl _ (fun b hb => by cases hb; exact Nat.lt_succ_self i)
      · rw [show stepsGo i (v :: tl) none = stepsGo (i + 1) tl none
          from by simp [stepsGo, hv]]
        exact ih (i + 1) htl none (fun b hb => by cases hb)
    | some b =>
      by_cases hv : 0 < v
      · by_cases hsplit : 15 ≤ b.minutes + 1
        · rw [show stepsGo i (v :: tl) (some b) =
              (⟨b.startIdx, i, b.totalSteps + v, b.minutes + 1⟩ : StepBlock) ::
                stepsGo (i + 1) tl (some ⟨i, i, v, 1⟩)
            from by simp [stepsGo, hv, hsplit], List.chain'_cons']
          constructor
          · intro y hy
            obtain ⟨h0, t0, heq0, hs0⟩ := stepsGo_some_head tl (i + 1) ⟨i, i, v, 1⟩
            rw [heq0] at hy
            simp only [List.head?_cons, Option.mem_def, Option.some_inj] at hy
            subst hy
            exact Or.inl hs0
          · exact ih (i + 1) htl _ (fun b' hb' => by cases hb'; exact Nat.lt_succ_self i)
        · rw [show stepsGo i (v :: tl) (some b) =
              stepsGo (i + 1) tl (some ⟨b.startIdx, i, b.totalSteps + v, b.minutes + 1⟩)
            from by simp [stepsGo, hv, hsplit]]
          exact ih (i + 1) htl _ (fun b' hb' => by cases hb'; exact Nat.lt_succ_self i)
      · by_cases hla : stepsZeroLookahead (v :: tl)
        · rw [show stepsGo i (v :: tl) (some b) = b :: stepsGo (i + 1) tl none
            from by simp [stepsGo, hv, hla], List.chain'_cons']
          refine ⟨?_, ih (i + 1) htl none (fun b' hb' => by cases hb')⟩
          intro y hy
          obtain ⟨hlen, hz⟩ := takeWhile_zero_bound 10 (v :: tl)
            (by simpa [stepsZeroLookahead] using hla)
          have hgd : ∀ m, ((v :: tl) : List Nat).getD m 1 = d.getD (i + m) 1 := by
            intro m
            rw [hld, List.getD_eq_getD_get?, List.getD_eq_getD_get?,
              List.get?_eq_getElem?, List.get?_eq_getElem?, List.getElem?_drop]
          have hzeros : ∀ m < 10, d.getD (i + m) 1 = 0 := by
            intro m hm
            rw [← hgd m]
            exact hz m hm
          cases heq2 : stepsGo (i + 1) tl none with
          | nil => rw [heq2] at hy; simp at hy
          | cons h0 t0 =>
            rw [heq2] at hy
            simp only [List.head?_cons, Option.mem_def, Option.some_inj] at hy
            subst hy
            obtain ⟨hstart, hpos⟩ := stepsGo_none_head d tl (i + 1) htl h0 t0 heq2
            have hfar : i + 10 ≤ h0.startIdx := by
              by_contra hcon
              have hm : h0.startIdx - i < 10 := by omega
              have h0z : d.getD h0.startIdx 1 = 0 := by
                have := hzeros (h0.startIdx - i) hm
                rwa [show i + (h0.startIdx - i) = h0.startIdx from by omega] at this
              have hsome : d[h0.startIdx]? = some 0 := by
                rw [List.getD_eq_getD_get?, List.get?_eq_getElem?] at h0z
                cases hget : d[h0.startIdx]? with
                | none => rw [hget] at h0z; simp at h0z
                | some x =>
                  rw [hget] at h0z
                  simp at h0z
                  subst h0z
                  rfl
              have : d.getD h0.startIdx 0 = 0 := by
                rw [List.getD_eq_getD_get?, List.get?_eq_getElem?, hsome]
                rfl
              exact hpos this
            exact Or.inr ⟨i, by omega, hcur b rfl, hfar, hzeros⟩
        · rw [show stepsGo i (v :: tl) (some b) = stepsGo (i + 1) tl (some b)
            from by simp [stepsGo, hv, hla]]
          exact ih (i + 1) htl (some b)
            (fun b' hb' => by cases hb'; exact Nat.lt_succ_of_lt (hcur b rfl))

/-- C5 (amended): the claim holds for blocks separated by the
inactivity gap, but not for the pair produced by the 15-minute split.
Any two consecutively emitted step blocks either share their boundary
minute (the split path starts the new block at the minute that closed
the previous one) or are separated by at least 10 consecutive
zero-step minutes of the source dataset. -/
theorem processStepsBlocks_split_or_separated (d : List Nat) :
    List.Chain' (splitOrGap d) (processStepsBlocks d) :=
  stepsGo_chain d d 0 (List.drop_zero d).symm none (fun b hb => by cases hb)

/-- C5 counterexample: on fifteen consecutive positive minutes the
split path emits two distinct samples whose blocks share minute 14 and
have no zero-step minute between them (the dataset has no zeros at
all), refuting the claim that any two distinct emitted samples are
separated by at least 10 consecutive zero-step minutes. -/
theorem processStepsData_split_blocks_adjacent :
    processStepsBlocks (List.replicate 15 1) = [⟨0, 14, 15, 15⟩, ⟨14, 14, 1, 1⟩] ∧
    processStepsData (List.replicate 15 1) = [⟨15, 14⟩, ⟨1, 14⟩] ∧
    (⟨15, 14⟩ : StepSample) ≠ ⟨1, 14⟩ ∧
    ¬ gapBetween (List.replicate 15 1) 14 14 := by
  refine ⟨by decide, by decide, by decide, by decide⟩

/-- C2: the sum of emitted step values is claimed to equal the sum of
the input step counts. It does not: when a block reaches 15 minutes the
code first adds the current minute to the block, emits it, and then
starts the new block with the same minute's steps again, double-counting
that minute. On fifteen consecutive minutes of one step each, the code
emits samples of value 15 and 1 (total 16) while the input sums to 15. -/
theorem processStepsData_sum_not_conserved :
    processStepsData (List.replicate 15 1) = [⟨15, 14⟩, ⟨1, 14⟩] ∧
    ((processStepsData (List.replicate 15 1)).map StepSample.value).sum = 16 ∧
    (List.replicate 15 1).sum = 15 := by
  decide

/-! ## SyncLogRepository: `update_sync_log` and `get_rate_limit_status`

Source: `src/unnamed/part_009`. The `sync_log` table is append-only and
queried with `ORDER BY created_at DESC LIMIT 1`; we keep the list with
the most recent row first, so an insert is a cons and the query is
`find?` from the head. Times are epoch milliseconds. -/

/-- A row of the `sync_log` table. -/
structure SyncLogRow where
  data_type : String
  last_sync_time : String
  status : String
  rate_limit_remaining : Option Nat
  rate_limit_reset : Option Nat
  error_message : Option String
deriving DecidableEq

/-- JS truthiness of a nullable number (`null`, `undefined` and `0` are falsy). -/
def truthyNat : Option Nat → Bool
  | some n => n ≠ 0
  | none => false

/-- The fields of the `rate_limit_info` argument that `update_sync_log`
reads (`remaining`, `reset_in` in seconds, `reset_time` in epoch ms). -/
structure RateLimitInfoIn where
  remaining : Option Nat
  reset_in : Option Nat
  reset_time : Option Nat
deriving DecidableEq

/-- `SyncLogRepository.update_sync_log`: computes the reset timestamp
from `reset_in`/`reset_time` (JS truthiness), stores
`rate_limit_info.remaining || null`, and appends the row. -/
def update_sync_log (log : List SyncLogRow) (now : Nat)
    (data_type last_sync_time status : String)
    (info : RateLimitInfoIn) (error_message : Option String) : List SyncLogRow :=
  let reset_timestamp : Option Nat :=
    if truthyNat info.reset_in then some (now + info.reset_in.getD 0 * 1000)
    else if truthyNat info.reset_time then info.reset_time
    else none
  { data_type := data_type
    last_sync_time := last_sync_time
    status := status
    rate_limit_remaining := if truthyNat info.remaining then info.remaining else none
    rate_limit_reset := reset_timestamp
    error_message := error_message } :: log

/-- The value returned by `get_rate_limit_status`. -/
structure RateStatus where
  rate_limit_remaining : Nat
  rate_limit_reset : Nat
deriving DecidableEq

/-- `SyncLogRepository.get_rate_limit_status`: reads the most recent row
with a non-null `rate_limit_remaining`; defaults to `(150, 0)` when there
is none; self-heals to `(150, 0)` when the recorded reset timestamp is
truthy and already passed; otherwise returns the stored remaining and
the seconds until reset. -/
def get_rate_limit_status (log : List SyncLogRow) (now : Nat) : RateStatus :=
  match log.find? (fun r => r.rate_limit_remaining.isSome) with
  | none => ⟨150, 0⟩
  | some row =>
    let rt := row.rate_limit_reset
    if truthyNat rt ∧ rt.getD 0 ≤ now then ⟨150, 0⟩
    else ⟨row.rate_limit_remaining.getD 0,
          if truthyNat rt then max 0 ((rt.getD 0 - now) / 1000) else 0⟩

/-- C6: if the most recent rate-bearing ledger row records a (nonzero)
reset instant at or before the current time, `get_rate_limit_status`
returns the fresh default `(150, 0)`; otherwise (reset still in the
future, or no reset recorded) it returns the stored remaining value.
The nonzero proviso reflects JS truthiness: reset instants written by
`update_sync_log` are either NULL or positive epoch-millisecond values. -/
theorem get_rate_limit_status_self_healing (log : List SyncLogRow) (now : Nat)
    (row : SyncLogRow)
    (hfind : log.find? (fun r => r.rate_limit_remaining.isSome) = some row)
    (hpos : ∀ r, row.rate_limit_reset = some r → 0 < r) :
    ((∃ r, row.rate_limit_reset = some r ∧ r ≤ now) →
      get_rate_limit_status log now = ⟨150, 0⟩) ∧
    ((∀ r, row.rate_limit_reset = some r → now < r) →
      (get_rate_limit_status log now).rate_limit_remaining =
        row.rate_limit_remaining.getD 0) := by
  have hstat : get_rate_limit_status log now =
      if truthyNat row.rate_limit_reset ∧ row.rate_limit_reset.getD 0 ≤ now
      then ⟨150, 0⟩
      else ⟨row.rate_limit_remaining.getD 0,
            if truthyNat row.rate_limit_reset
            then max 0 ((row.rate_limit_reset.getD 0 - now) / 1000) else 0⟩ := by
    unfold get_rate_limit_status
    rw [hfind]
  constructor
  · rintro ⟨r, hr, hle⟩
    have ht : truthyNat row.rate_limit_reset = true := by
      have := hpos r hr
      simp [truthyNat, hr]
      omega
    rw [hstat, if_pos ⟨ht, by rw [hr]; exact hle⟩]
  · intro hlt
    rw [hstat, if_neg]
    rintro ⟨ht, hle⟩
    cases hrt : row.rate_limit_reset with
    | none => rw [hrt] at ht; simp [truthyNat] at ht
    | some r =>
      rw [hrt] at hle
      have := hlt r hrt
      simp at hle
      omega

/-- Most recent rate-bearing row with a stale reset instant. -/
def rlRowStale : SyncLogRow := ⟨"activity", "t1", "success", some 7, some 50, none⟩

/-- Most recent rate-bearing row whose reset instant is still ahead. -/
def rlRowFresh : SyncLogRow := ⟨"activity", "t2", "success", some 7, some 500, none⟩

/-- Witness for C6 at concrete ledgers: at time 100 a row with reset
instant 50 heals to `(150, 0)` while a row with reset instant 500 still
yields the stored remaining 7. -/
theorem get_rate_limit_status_self_healing_witness :
    get_rate_limit_status [rlRowStale] 100 = ⟨150, 0⟩ ∧
    (get_rate_limit_status [rlRowFresh] 100).rate_limit_remaining = 7 := by
  constructor
  · exact (get_rate_limit_status_self_healing [rlRowStale] 100 rlRowStale
      (by decide) (fun r hr => by simp [rlRowStale] at hr; omega)).1
      ⟨50, rfl, by omega⟩
  · exact (get_rate_limit_status_self_healing [rlRowFresh] 100 rlRowFresh
      (by decide) (fun r hr => by simp [rlRowFresh] at hr; omega)).2
      (fun r hr => by simp [rlRowFresh] at hr; omega)

/-- C10: `rate_limit_info.remaining || null` maps a snapshot of exactly
0 remaining requests to a NULL column; consequently no ledger produced
by `update_sync_log` ever records `remaining = 0`, and
`get_rate_limit_status` over such a ledger never returns 0 (it returns
the default/healed 150 or a positive stored value). -/
theorem update_sync_log_zero_remaining_is_null :
    (∀ (log : List SyncLogRow) (now : Nat) (dt ts st : String)
      (ri rt : Option Nat) (em : Option String),
      ∃ row, update_sync_log log now dt ts st ⟨some 0, ri, rt⟩ em = row :: log ∧
        row.rate_limit_remaining = none) ∧
    (∀ (log : List SyncLogRow) (now : Nat) (dt ts st : String)
      (info : RateLimitInfoIn) (em : Option String),
      (∀ r ∈ log, r.rate_limit_remaining ≠ some 0) →
      ∀ r ∈ update_sync_log log now dt ts st info em,
        r.rate_limit_remaining ≠ some 0) ∧
    (∀ (log : List SyncLogRow) (now : Nat),
      (∀ r ∈ log, r.rate_limit_remaining ≠ some 0) →
      (get_rate_limit_status log now).rate_limit_remaining ≠ 0) := by
  refine ⟨?_, ?_, ?_⟩
  · intro log now dt ts st ri rt em
    exact ⟨_, rfl, by simp [truthyNat]⟩
  · intro log now dt ts st info em hinv r hr
    rw [update_sync_log] at hr
    rcases List.mem_cons.mp hr with hEq | hMem
    · subst hEq
      by_cases htr : truthyNat info.remaining
      · simp only [if_pos htr]
        cases hrem : info.remaining with
        | none => simp
        | some n =>
          rw [hrem] at htr
          simp [truthyNat] at htr
          simp [htr]
      · simp [if_neg htr]
    · exact hinv r hMem
  · intro log now hinv
    cases hfind : log.find? (fun r => r.rate_limit_remaining.isSome) with
    | none =>
      have hstat : get_rate_limit_status log now = ⟨150, 0⟩ := by
        unfold get_rate_limit_status
        rw [hfind]
      rw [hstat]
      decide
    | some row =>
      have hstat : get_rate_limit_status log now =
          if truthyNat row.rate_limit_reset ∧ row.rate_limit_reset.getD 0 ≤ now
          then ⟨150, 0⟩
          else ⟨row.rate_limit_remaining.getD 0,
                if truthyNat row.rate_limit_reset
                then max 0 ((row.rate_limit_reset.getD 0 - now) / 1000) else 0⟩ := by
        unfold get_rate_limit_status
        rw [hfind]
      have hmem : row ∈ log := List.mem_of_find?_eq_some hfind
      have hsome : row.rate_limit_remaining.isSome := by
        have := List.find?_some hfind
        simpa using this
      rw [hstat]
      by_cases hcond : truthyNat row.rate_limit_reset ∧ row.rate_limit_reset.getD 0 ≤ now
      · rw [if_pos hcond]
        decide
      · rw [if_neg hcond]
        cases hrem : row.rate_limit_remaining with
        | none => rw [hrem] at hsome; simp at hsome
        | some v =>
          have := hinv row hmem
          rw [hrem] at this
          simp only [Option.getD_some]
          intro hv
          exact this (by rw [hv])

/-- Witness for C10 at a concrete ledger: logging a snapshot with 0
remaining stores NULL, the no-zero invariant is preserved, and the
status read over the resulting ledger is nonzero. -/
theorem update_sync_log_zero_remaining_is_null_witness :
    (∃ row, update_sync_log [] 0 "activity" "t" "success" ⟨some 0, none, none⟩ none =
      [row] ∧ row.rate_limit_remaining = none) ∧
    (get_rate_limit_status
      (update_sync_log [] 0 "activity" "t" "success" ⟨some 0, none, none⟩ none)
      5).rate_limit_remaining ≠ 0 := by
  constructor
  · exact update_sync_log_zero_remaining_is_null.1 [] 0 "activity" "t" "success"
      none none none
  · exact update_sync_log_zero_remaining_is_null.2.2 _ 5
      (update_sync_log_zero_remaining_is_null.2.1 [] 0 "activity" "t" "success"
        ⟨some 0, none, none⟩ none (by intro r hr; simp at hr))

/-! ## CalorieSplitter: `FitbitService.processCaloriesData`

Source: `src/routes/api.js` lines 1141-1185. The dataset is the list of
per-minute total-calorie values; per-minute active calories are
`max(0, value - bmrPerMinute)`. The loop always advances by 30 minutes
(`blockSize` is always 30), computing mean and population standard
deviation of the window's active values and splitting spiky windows
into their two 15-minute halves. -/

/-- An emitted active-calorie sample (`{type: "activeCalories", value,
datetime}`), datetime given as the minute index of the block end. -/
structure CalSample where
  value : ℚ
  datetime : Nat
deriving DecidableEq

/-- `Math.max` on two rationals, written with `if` so that it reduces
computationally. -/
def jsMax (a b : ℚ) : ℚ := if a ≤ b then b else a

/-- Per-minute active calories: `Math.max(0, value - bmrPerMinute)`. -/
def activeCal (bmr v : ℚ) : ℚ := jsMax 0 (v - bmr)

/-- Arithmetic mean (`total / length`). -/
def listAvg (l : List ℚ) : ℚ := l.sum / l.length

/-- Population variance (`reduce((a,b) => a + (b - avg)^2, 0) / length`). -/
def listVar (l : List ℚ) : ℚ :=
  (l.map fun b => (b - listAvg l) ^ 2).sum / l.length

/-- The split heuristic `stddev > 0.2 × avg`. The active-calorie values
are nonnegative, so the mean is nonnegative and both sides of the
comparison are nonnegative; squaring both sides gives the equivalent
rational test `25 · variance > avg²`, avoiding the irrational square
root of the source's `Math.sqrt`. -/
def splitHeuristic (l : List ℚ) : Bool :=
  decide (listAvg l ^ 2 < 25 * listVar l)

/-- One 15-minute half of a split window, starting at minute `i`:
emitted when its active-calorie sum is positive, timestamped at its
last minute. -/
def calHalf (bmr : ℚ) (i : Nat) (sub : List ℚ) : List CalSample :=
  let arr := sub.map (activeCal bmr)
  let total := arr.sum
  if 0 < total then [⟨total, i + sub.length - 1⟩] else []

/-- The loop body for one 30-minute window starting at minute `i`:
split a spiky window into its two 15-minute halves, otherwise emit the
whole window when its active sum is positive. -/
def calWindowSamples (bmr : ℚ) (i : Nat) (block : List ℚ) : List CalSample :=
  let arr := block.map (activeCal bmr)
  let total := arr.sum
  if splitHeuristic arr then
    calHalf bmr i (block.take 15) ++ calHalf bmr (i + 15) (block.drop 15)
  else if 0 < total then
    [⟨total, i + block.length - 1⟩]
  else []

/-- The `while (i < dataset.length)` loop of `processCaloriesData`:
each iteration handles one 30-minute window and advances by 30. -/
def processCaloriesGo (bmr : ℚ) (i : Nat) (l : List ℚ) : List CalSample :=
  if h : l = [] then []
  else
    calWindowSamples bmr i (l.take 30) ++ processCaloriesGo bmr (i + 30) (l.drop 30)
termination_by l.length
decreasing_by
  simp only [List.length_drop]
  have : 0 < l.length := List.length_pos.mpr h
  omega

/-- `FitbitService.processCaloriesData`. -/
def processCaloriesData (dataset : List ℚ) (bmr : ℚ) : List CalSample :=
  processCaloriesGo bmr 0 dataset

/-- C7 (amended): the whole-window case of the claim holds, and the
split case holds provided both 15-minute halves have positive active
sums. In detail: (1) the loop processes the dataset in consecutive
30-minute windows; (2) a full window with population standard
deviation 0 and positive active sum yields exactly one sample carrying
the window's active sum at its last minute; (3) a full window with
`stddev > 0.2 × mean` whose two halves both have positive active sums
yields exactly the two 15-minute half samples. A spiky half with zero
active sum is skipped, which is what the original claim misses. -/
theorem processCaloriesData_window_splitting :
    (∀ (bmr : ℚ) (i : Nat) (l : List ℚ), l ≠ [] →
      processCaloriesGo bmr i l =
        calWindowSamples bmr i (l.take 30) ++
          processCaloriesGo bmr (i + 30) (l.drop 30)) ∧
    (∀ (bmr : ℚ) (i : Nat) (w : List ℚ), w.length = 30 →
      listVar (w.map (activeCal bmr)) = 0 →
      0 < (w.map (activeCal bmr)).sum →
      calWindowSamples bmr i w = [⟨(w.map (activeCal bmr)).sum, i + 29⟩]) ∧
    (∀ (bmr : ℚ) (i : Nat) (w : List ℚ), w.length = 30 →
      splitHeuristic (w.map (activeCal bmr)) = true →
      0 < ((w.take 15).map (activeCal bmr)).sum →
      0 < ((w.drop 15).map (activeCal bmr)).sum →
      calWindowSamples bmr i w =
        [⟨((w.take 15).map (activeCal bmr)).sum, i + 14⟩,
         ⟨((w.drop 15).map (activeCal bmr)).sum, i + 29⟩]) := by
  refine ⟨?_, ?_, ?_⟩
  · intro bmr i l hne
    rw [processCaloriesGo, dif_neg hne]
  · intro bmr i w hlen hvar hsum
    have hsplit : splitHeuristic (w.map (activeCal bmr)) = false := by
      simp only [splitHeuristic, hvar, decide_eq_false_iff_not, not_lt, mul_zero]
      exact sq_nonneg _
    have e1 : i + w.length - 1 = i + 29 := by omega
    simp only [calWindowSamples, hsplit, Bool.false_eq_true, if_false,
      if_pos hsum, e1]
  · intro bmr i w hlen hsplit hs1 hs2
    have ht : (w.take 15).length = 15 := by
      rw [List.length_take]
      omega
    have hd : (w.drop 15).length = 15 := by
      rw [List.length_drop]
      omega
    have e1 : i + 15 - 1 = i + 14 := by omega
    have e2 : i + 15 + 15 - 1 = i + 29 := by omega
    simp only [calWindowSamples, calHalf, hsplit, if_true, if_pos hs1,
      if_pos hs2, ht, hd, e1, e2]
    rfl

/-- With a zero BMR a nonnegative calorie value is its own active value. -/
theorem activeCal_zero (v : ℚ) (hv : 0 ≤ v) : activeCal 0 v = v := by
  rw [activeCal, sub_zero, jsMax, if_pos hv]

/-- Witness for C7 at concrete windows with `bmr = 0`: a flat window of
thirty 2s emits its single whole-window sample; a spiky window of
fifteen 1s then fifteen 3s emits its two half samples; and the loop
decomposition applies to a nonempty dataset. -/
theorem processCaloriesData_window_splitting_witness :
    processCaloriesGo 0 0 [1] =
      calWindowSamples 0 0 ([(1 : ℚ)].take 30) ++
        processCaloriesGo 0 30 ([(1 : ℚ)].drop 30) ∧
    calWindowSamples 0 0 (List.replicate 30 (2 : ℚ)) = [⟨60, 29⟩] ∧
    calWindowSamples 0 0 (List.replicate 15 (1 : ℚ) ++ List.replicate 15 3) =
      [⟨15, 14⟩, ⟨45, 29⟩] := by
  have a1 : activeCal 0 (1 : ℚ) = 1 := activeCal_zero 1 (by norm_num)
  have a2 : activeCal 0 (2 : ℚ) = 2 := activeCal_zero 2 (by norm_num)
  have a3 : activeCal 0 (3 : ℚ) = 3 := activeCal_zero 3 (by norm_num)
  refine ⟨?_, ?_, ?_⟩
  · exact processCaloriesData_window_splitting.1 0 0 [1] (by simp)
  · have hmap : (List.replicate 30 (2 : ℚ)).map (activeCal 0) =
        List.replicate 30 2 := by
      rw [List.map_replicate, a2]
    have havg : listAvg (List.replicate 30 (2 : ℚ)) = 2 := by
      rw [listAvg, List.sum_replicate, List.length_replicate]
      norm_num
    have hvar : listVar ((List.replicate 30 (2 : ℚ)).map (activeCal 0)) = 0 := by
      rw [hmap, listVar, havg, List.map_replicate]
      norm_num
    have hsum : 0 < ((List.replicate 30 (2 : ℚ)).map (activeCal 0)).sum := by
      rw [hmap, List.sum_replicate]
      norm_num
    have h := processCaloriesData_window_splitting.2.1 0 0
      (List.replicate 30 (2 : ℚ)) (by simp) hvar hsum
    rw [h, hmap, List.sum_replicate]
    norm_num
  · have hmap : ((List.replicate 15 (1 : ℚ) ++ List.replicate 15 3).map
        (activeCal 0)) = List.replicate 15 1 ++ List.replicate 15 3 := by
      rw [List.map_append, List.map_replicate, List.map_replicate, a1, a3]
    have havg : listAvg (List.replicate 15 (1 : ℚ) ++ List.replicate 15 3) = 2 := by
      rw [listAvg, List.sum_append, List.sum_replicate, List.sum_replicate,
        List.length_append, List.length_replicate, List.length_replicate]
      norm_num
    have hsplit : splitHeuristic ((List.replicate 15 (1 : ℚ) ++
        List.replicate 15 3).map (activeCal 0)) = true := by
      rw [hmap]
      simp only [splitHeuristic, decide_eq_true_eq, listVar, havg,
        List.map_append, List.map_replicate, List.sum_append,
        List.sum_replicate, List.length_append, List.length_replicate]
      norm_num
    have htake : (List.replicate 15 (1 : ℚ) ++ List.replicate 15 3).take 15 =
        List.replicate 15 1 := by
      rw [show (15 : Nat) = (List.replicate 15 (1 : ℚ)).length from by simp]
      exact List.take_left _ _
    have hdrop : (List.replicate 15 (1 : ℚ) ++ List.replicate 15 3).drop 15 =
        List.replicate 15 3 := by
      rw [show (15 : Nat) = (List.replicate 15 (1 : ℚ)).length from by simp]
      exact List.drop_left _ _
    have hs1 : 0 < (((List.replicate 15 (1 : ℚ) ++ List.replicate 15 3).take 15).map
        (activeCal 0)).sum := by
      rw [htake, List.map_replicate, a1, List.sum_replicate]
      norm_num
    have hs2 : 0 < (((List.replicate 15 (1 : ℚ) ++ List.replicate 15 3).drop 15).map
        (activeCal 0)).sum := by
      rw [hdrop, List.map_replicate, a3, List.sum_replicate]
      norm_num
    have h := processCaloriesData_window_splitting.2.2 0 0
      (List.replicate 15 (1 : ℚ) ++ List.replicate 15 3) (by simp) hsplit hs1 hs2
    rw [h, htake, hdrop, List.map_replicate, List.map_replicate, a1, a3,
      List.sum_replicate, List.sum_replicate]
    norm_num

/-- The counterexample dataset for C7: fifteen 0-calorie minutes
followed by fifteen 2-calorie minutes, one full 30-minute window. -/
def calSpiky : List ℚ := List.replicate 15 0 ++ List.replicate 15 2

/-- C7 counterexample: `calSpiky` (with `bmr = 0`) is a single 30-minute
window with `stddev > 0.2 × mean` (mean 1, stddev 1), yet
`processCaloriesData` emits exactly one sample, not two: the first
15-minute half has active sum 0 and is skipped. -/
theorem processCaloriesData_spiky_window_one_sample :
    splitHeuristic (calSpiky.map (activeCal 0)) = true ∧
    processCaloriesData calSpiky 0 = [⟨30, 29⟩] := by
  have a0 : activeCal 0 (0 : ℚ) = 0 := activeCal_zero 0 (by norm_num)
  have a2 : activeCal 0 (2 : ℚ) = 2 := activeCal_zero 2 (by norm_num)
  have hmap : calSpiky.map (activeCal 0) = calSpiky := by
    rw [calSpiky, List.map_append, List.map_replicate, List.map_replicate, a0, a2]
  have havg : listAvg calSpiky = 1 := by
    rw [calSpiky, listAvg, List.sum_append, List.sum_replicate,
      List.sum_replicate, List.length_append, List.length_replicate,
      List.length_replicate]
    norm_num
  have hsplit : splitHeuristic (calSpiky.map (activeCal 0)) = true := by
    rw [hmap]
    simp only [splitHeuristic, decide_eq_true_eq, listVar, havg]
    rw [calSpiky, List.map_append, List.map_replicate, List.map_replicate,
      List.sum_append, List.sum_replicate, List.sum_replicate,
      List.length_append, List.length_replicate, List.length_replicate]
    norm_num
  refine ⟨hsplit, ?_⟩
  have hlen : calSpiky.length = 30 := by
    rw [calSpiky, List.length_append, List.length_replicate, List.length_replicate]
  have htake30 : calSpiky.take 30 = calSpiky := by
    rw [← hlen, List.take_length]
  have hdrop30 : calSpiky.drop 30 = [] := by
    rw [← hlen, List.drop_length]
  have htake15 : calSpiky.take 15 = List.replicate 15 0 := by
    rw [calSpiky, show (15 : Nat) = (List.replicate 15 (0 : ℚ)).length from by simp]
    exact List.take_left _ _
  have hdrop15 : calSpiky.drop 15 = List.replicate 15 2 := by
    rw [calSpiky, show (15 : Nat) = (List.replicate 15 (0 : ℚ)).length from by simp]
    exact List.drop_left _ _
  have hne : calSpiky ≠ [] := by
    intro hcon
    rw [hcon] at hlen
    simp at hlen
  rw [processCaloriesData, processCaloriesGo, dif_neg hne, htake30, hdrop30,
    processCaloriesGo, dif_pos rfl, List.append_nil]
  have hhalf1 : calHalf 0 0 (calSpiky.take 15) = [] := by
    rw [htake15]
    simp only [calHalf, List.map_replicate, a0, List.sum_replicate, smul_zero]
    norm_num
  have hhalf2 : calHalf 0 15 (calSpiky.drop 15) = [⟨30, 29⟩] := by
    rw [hdrop15]
    simp only [calHalf, List.map_replicate, a2, List.sum_replicate,
      List.length_replicate]
    norm_num
  have hsplit2 : splitHeuristic calSpiky = true := by rw [← hmap]; exact hsplit
  simp only [calWindowSamples, hmap, hsplit2, if_true, hhalf1, hhalf2,
    List.nil_append]

/-! ## HeartRateBlocker: `FitbitService.processHeartRateData`

Source: `src/routes/api.js` lines 1240-1393. First pass: a rolling
baseline over a ±10-minute window classifies each valid minute as
exertion when the reading deviates from the baseline by more than
15 bpm. Second pass: blocks of consecutive valid minutes grow towards a
dynamic target size (5 minutes during exertion, 30 otherwise), close on
classification flips once 3 minutes are reached, on reaching the target
size, on a 5-minute gap of invalid readings, or at end of data; every
close requires at least 3 minutes. -/

/-- The per-minute analysis entry (`baselines[i]`). -/
structure HRAnalysis where
  heartRate : Nat
  baseline : ℚ
  isExertion : Bool
deriving DecidableEq

/-- `Math.abs` on ℚ, written with `if` so that it reduces. -/
def ratAbs (q : ℚ) : ℚ := if q < 0 then -q else q

/-- First pass of `processHeartRateData` at minute `i`: baseline = mean
of the valid (positive) readings within the window
`[max(0, i-10), min(length, i+10))` (falling back to the reading itself
when the window has no valid readings), exertion when
`|reading - baseline| > 15`. An invalid minute analyzes to
`{heartRate: 0, baseline: 0, isExertion: false}`. -/
def analyzeHR (d : List Nat) (i : Nat) : HRAnalysis :=
  let hr := d.getD i 0
  if 0 < hr then
    let ws := i - 10
    let we := min d.length (i + 10)
    let window := (d.drop ws).take (we - ws)
    let valids := window.filter (fun v => decide (0 < v))
    let baseline : ℚ :=
      if 0 < valids.length then (valids.sum : ℚ) / (valids.length : ℚ)
      else (hr : ℚ)
    ⟨hr, baseline, decide (15 < ratAbs ((hr : ℚ) - baseline))⟩
  else ⟨0, 0, false⟩

/-- The dynamic target size: 5 minutes during exertion, 30 otherwise. -/
def hrTarget (a : HRAnalysis) : Nat := if a.isExertion then 5 else 30

/-- The `currentBlock` object of the second pass: the readings list
holds the block's constituent valid readings in order. -/
structure HRBlock where
  startIdx : Nat
  endIdx : Nat
  heartRates : List Nat
  minutes : Nat
  isExertionBlock : Bool
  targetSize : Nat
deriving DecidableEq

/-- The 5-minute invalid-gap lookahead (count zeros among the next
`min(5, remaining)` minutes, stopping at the first valid one). -/
def hrGapLookahead (l : List Nat) : Bool :=
  5 ≤ ((l.take 5).takeWhile (fun v => v == 0)).length

/-- The second pass of `processHeartRateData`, instrumented to emit the
whole closing block; `i` is the index of the head of `l` in `d`. -/
def hrGo (d : List Nat) : Nat → List Nat → Option HRBlock → List HRBlock
  | _, [], none => []
  | _, [], some b => if 3 ≤ b.minutes then [b] else []
  | i, _ :: tl, none =>
      if 0 < (analyzeHR d i).heartRate then
        hrGo d (i + 1) tl (some ⟨i, i, [(analyzeHR d i).heartRate], 1,
          (analyzeHR d i).isExertion, hrTarget (analyzeHR d i)⟩)
      else hrGo d (i + 1) tl none
  | i, v :: tl, some b =>
      if 0 < (analyzeHR d i).heartRate then
        if b.isExertionBlock ≠ (analyzeHR d i).isExertion ∧ 3 ≤ b.minutes then
          b :: hrGo d (i + 1) tl (some ⟨i, i, [(analyzeHR d i).heartRate], 1,
            (analyzeHR d i).isExertion, hrTarget (analyzeHR d i)⟩)
        else if b.targetSize ≤ b.minutes then
          b :: hrGo d (i + 1) tl (some ⟨i, i, [(analyzeHR d i).heartRate], 1,
            (analyzeHR d i).isExertion, hrTarget (analyzeHR d i)⟩)
        else
          hrGo d (i + 1) tl (some
            ⟨b.startIdx, i, b.heartRates ++ [(analyzeHR d i).heartRate],
             b.minutes + 1,
             if 3 ≤ b.minutes then b.isExertionBlock
             else (analyzeHR d i).isExertion,
             if 3 ≤ b.minutes then b.targetSize else hrTarget (analyzeHR d i)⟩)
      else
        if hrGapLookahead (v :: tl) ∧ 3 ≤ b.minutes then
          b :: hrGo d (i + 1) tl none
        else
          hrGo d (i + 1) tl (some b)

/-- The blocks closed by `processHeartRateData`, in emission order. -/
def hrBlocks (d : List Nat) : List HRBlock :=
  hrGo d 0 d none

/-- JS `Math.round` (round half towards positive infinity). -/
def jsRound (q : ℚ) : ℤ := ⌊q + 1 / 2⌋

/-- An emitted heart-rate sample (`{type: "heartRate", value, datetime}`). -/
structure HRSample where
  value : ℤ
  datetime : Nat
deriving DecidableEq

/-- `FitbitService.processHeartRateData`: each closing block emits
`{value: Math.round(mean(readings)), datetime: endTime}`. -/
def processHeartRateData (d : List Nat) : List HRSample :=
  (hrBlocks d).map fun b =>
    ⟨jsRound ((b.heartRates.sum : ℚ) / (b.heartRates.length : ℚ)), b.endIdx⟩

/-- Every reachable block state has its minute count equal to its
reading count and a target size of 5 or 30; hence every emitted block
(including the day's final one) has at least 3 minutes. -/
theorem hrGo_min_block (d : List Nat) :
    ∀ (l : List Nat) (i : Nat) (cur : Option HRBlock),
      (∀ b, cur = some b →
        b.minutes = b.heartRates.length ∧
          (b.targetSize = 5 ∨ b.targetSize = 30)) →
      ∀ b ∈ hrGo d i l cur,
        3 ≤ b.minutes ∧ b.minutes = b.heartRates.length := by
  intro l
  induction l with
  | nil =>
    intro i cur hinv b hb
    match cur with
    | none => simp [hrGo] at hb
    | some b0 =>
      rw [hrGo] at hb
      split at hb
      · next h3 =>
        rw [List.mem_singleton] at hb
        subst hb
        exact ⟨h3, (hinv b rfl).1⟩
      · simp at hb
  | cons v tl ih =>
    intro i cur hinv b hb
    match cur with
    | none =>
      rw [hrGo] at hb
      split at hb
      · exact ih (i + 1) _ (fun b0 h0 => by cases h0; exact ⟨rfl, by
          rw [hrTarget]; split
          · exact Or.inl rfl
          · exact Or.inr rfl⟩) b hb
      · exact ih (i + 1) none (fun b0 h0 => by cases h0) b hb
    | some b0 =>
      have hnewinv : ∀ (b1 : HRBlock),
          some (⟨i, i, [(analyzeHR d i).heartRate], 1,
            (analyzeHR d i).isExertion, hrTarget (analyzeHR d i)⟩ : HRBlock) =
            some b1 →
          b1.minutes = b1.heartRates.length ∧
            (b1.targetSize = 5 ∨ b1.targetSize = 30) := by
        intro b1 h1
        cases h1
        refine ⟨rfl, ?_⟩
        rw [hrTarget]
        split
        · exact Or.inl rfl
        · exact Or.inr rfl
      obtain ⟨hinv1, hinv2⟩ := hinv b0 rfl
      rw [hrGo] at hb
      split at hb
      · split at hb
        · next hflip =>
          rcases List.mem_cons.mp hb with hEq | hMem
          · subst hEq
            exact ⟨hflip.2, hinv1⟩
          · exact ih (i + 1) _ hnewinv b hMem
        · split at hb
          · next hsize =>
            rcases List.mem_cons.mp hb with hEq | hMem
            · subst hEq
              refine ⟨?_, hinv1⟩
              rcases hinv2 with h5 | h30
              · rw [h5] at hsize; omega
              · rw [h30] at hsize; omega
            · exact ih (i + 1) _ hnewinv b hMem
          · refine ih (i + 1) _ ?_ b hb
            intro b1 h1
            cases h1
            refine ⟨by simp [hinv1], ?_⟩
            split
            · exact hinv2
            · rw [hrTarget]
              split
              · exact Or.inl rfl
              · exact Or.inr rfl
      · split at hb
        · next hgap =>
          rcases List.mem_cons.mp hb with hEq | hMem
          · subst hEq
            exact ⟨hgap.2, hinv1⟩
          · exact ih (i + 1) none (fun b1 h1 => by cases h1) b hMem
        · exact ih (i + 1) (some b0) (fun b1 h1 => by cases h1; exact ⟨hinv1, hinv2⟩) b hb

/-- C8: every sample emitted by `processHeartRateData` carries the
rounded arithmetic mean of its block's constituent valid readings as
its value and the block's last minute as its datetime; and every
emitted block — the day's final one included, which is stronger than
the claim requires — represents at least 3 valid minutes (the minute
count always equals the number of readings). -/
theorem processHeartRateData_min_block_and_mean (d : List Nat) :
    processHeartRateData d = (hrBlocks d).map (fun b =>
      ⟨jsRound ((b.heartRates.sum : ℚ) / (b.heartRates.length : ℚ)),
        b.endIdx⟩) ∧
    ∀ b ∈ hrBlocks d, 3 ≤ b.minutes ∧ b.minutes = b.heartRates.length := by
  refine ⟨rfl, ?_⟩
  intro b hb
  exact hrGo_min_block d d 0 none (fun b0 h0 => by cases h0) b hb

/-- The single block emitted on a three-minute constant dataset. -/
def hrConstBlock : HRBlock := ⟨0, 2, [80, 80, 80], 3, false, 30⟩

/-- Witness for C8 at the concrete dataset `[80, 80, 80]`: one block of
3 valid minutes is emitted, its sample value is the rounded mean 80. -/
theorem processHeartRateData_min_block_and_mean_witness :
    hrBlocks [80, 80, 80] = [hrConstBlock] ∧
    (3 ≤ hrConstBlock.minutes ∧
      hrConstBlock.minutes = hrConstBlock.heartRates.length) ∧
    processHeartRateData [80, 80, 80] = [⟨80, 2⟩] := by
  have key : ∀ i : Nat, i < 3 → analyzeHR [80, 80, 80] i = ⟨80, 80, false⟩ := by
    intro i hi
    interval_cases i <;>
      · simp only [analyzeHR]
        norm_num [ratAbs]
  have h0 := key 0 (by omega)
  have h1 := key 1 (by omega)
  have h2 := key 2 (by omega)
  have hblocks : hrBlocks [80, 80, 80] = [hrConstBlock] := by
    rw [hrBlocks]
    norm_num [hrGo, h0, h1, h2, hrConstBlock, hrTarget]
  refine ⟨hblocks, ?_, ?_⟩
  · exact (processHeartRateData_min_block_and_mean [80, 80, 80]).2 hrConstBlock
      (by rw [hblocks]; exact List.mem_singleton.mpr rfl)
  · rw [(processHeartRateData_min_block_and_mean [80, 80, 80]).1, hblocks]
    have hval : ((hrConstBlock.heartRates.sum : ℚ) /
        (hrConstBlock.heartRates.length : ℚ)) = 80 := by
      rw [hrConstBlock]
      norm_num
    rw [List.map_singleton, hval]
    have hround : jsRound 80 = 80 := by
      rw [jsRound, Int.floor_eq_iff]
      constructor <;> norm_num
    rw [hround]
    rfl

/-! ## RateLimitedClient: `FitbitService.makeAPIRequest`

Source: `src/routes/api.js` lines 900-980. The outbound transport is
modelled by a script: the list of responses the network returns to
successive attempts in order. A `World` carries the script together
with the observable state the claims speak about: the number of
outbound API requests made, the number of token refreshes, the
`samples` table, the `sync_log` ledger and the current time. Token
refresh is modelled as succeeding (its own failure would propagate and
is orthogonal to the retry-bound question). The locale-rendered reset
time that the source appends in parentheses to the 429 message, and
the `resetTime` (next full hour) field of the extracted rate-limit
info, are time-of-day renderings not modelled here. -/

/-- Payload of a successful API response: the nested per-minute dataset
or document the pipelines read. Sleep logs are flattened to their main
stage entries and short-wake entries `(level, dateTime ms, seconds)`;
the other-health endpoints return `(value, dateTime)` readings. -/
inductive ApiData where
  | stepsIntraday (dataset : List Nat)
  | caloriesIntraday (dailyBMR : Option ℚ) (dataset : List ℚ)
  | heartIntraday (dataset : List Nat)
  | sleepLogs (stages : List (String × Nat × Nat))
      (shortWakes : List (String × Nat × Nat))
  | otherReadings (readings : List (ℚ × String))
deriving DecidableEq

/-- One scripted transport outcome: a 2xx response with payload and
rate-limit headers, or an HTTP error status with rate-limit headers. -/
inductive ApiResponse where
  | ok (data : ApiData) (remaining resetIn limit : Nat)
  | err (status : Nat) (remaining limit resetIn : Nat)
deriving DecidableEq

/-- The value of `extractRateLimitInfo` (minus the wall-clock
`resetTime` field): `used = limit - remaining`. -/
structure RateLimitInfo where
  remaining : Nat
  resetIn : Nat
  limit : Nat
  used : Int
deriving DecidableEq

/-- `FitbitService.extractRateLimitInfo`. -/
def extractRateLimitInfo (remaining resetIn limit : Nat) : RateLimitInfo :=
  ⟨remaining, resetIn, limit, (limit : Int) - remaining⟩

/-- A thrown JS error: `new Error(message)` carries only its message
string; a rethrown axios error additionally carries the response
status. -/
inductive JsError where
  | plain (message : String)
  | httpError (status : Nat) (message : String)
deriving DecidableEq

/-- The message of a JS error. -/
def JsError.message : JsError → String
  | .plain m => m
  | .httpError _ m => m

/-- The free-text message thrown on HTTP 429 (without the trailing
locale-rendered reset time). -/
def rateLimitExceededMsg (used : Int) (limit remaining resetIn : Nat) : String :=
  "Rate limit exceeded. Used " ++ toString used ++ "/" ++ toString limit ++
    " requests. " ++ toString remaining ++ " remaining. Resets in " ++
    toString resetIn ++ " seconds"

/-- The world threaded through the client and orchestrator. -/
structure World where
  script : List ApiResponse
  apiCalls : Nat
  refreshes : Nat
  samples : List SampleRow
  syncLog : List SyncLogRow
  now : Nat
deriving DecidableEq

/-- The attempt loop of `makeAPIRequest` over the remaining script:
each attempt consumes one scripted response and counts one outbound
request; 429 fails with a plain message-only error; 401 refreshes the
token and recursively retries (`return this.makeAPIRequest(...)` — no
retry counter); other non-2xx rethrow the axios error. An exhausted
script is a modelling artifact (the theorems quantify over scripts
containing the needed responses). -/
def requestGo : List ApiResponse → World →
    Except JsError (ApiData × RateLimitInfo) × World
  | [], w => (.error (.plain "no scripted response"), w)
  | r :: rest, w =>
    let w1 : World := { w with script := rest, apiCalls := w.apiCalls + 1 }
    match r with
    | .ok d remaining resetIn limit =>
      (.ok (d, extractRateLimitInfo remaining resetIn limit), w1)
    | .err status remaining limit resetIn =>
      if status = 429 then
        (.error (.plain (rateLimitExceededMsg ((limit : Int) - remaining)
          limit remaining resetIn)), w1)
      else if status = 401 then
        requestGo rest { w1 with refreshes := w1.refreshes + 1 }
      else
        (.error (.httpError status "Request failed"), w1)

/-- `FitbitService.makeAPIRequest`. -/
def makeAPIRequest (w : World) : Except JsError (ApiData × RateLimitInfo) × World :=
  requestGo w.script w

/-- Whether a scripted response is an HTTP 401. -/
def is401 : ApiResponse → Bool
  | .err 401 _ _ _ => true
  | _ => false

/-- A 401 response is an `err` with status 401. -/
theorem is401_eq (e : ApiResponse) (h : is401 e = true) :
    ∃ a b c, e = .err 401 a b c := by
  match e with
  | .ok _ _ _ _ => simp [is401] at h
  | .err s a b c =>
    refine ⟨a, b, c, ?_⟩
    match s, h with
    | 401, _ => rfl

/-- C3 (amended): `makeAPIRequest` has no retry bound and no
`AuthExpired` failure: every consecutive 401 triggers one token refresh
and one further attempt, however many there are; the call resolves with
the outcome of the first non-401 scripted response. In particular a
second 401 leads to a second refresh-and-retry instead of failing. -/
theorem makeAPIRequest_retries_every_401 (pre rest : List ApiResponse)
    (w : World) (hpre : ∀ e ∈ pre, is401 e = true)
    (hw : w.script = pre ++ rest) :
    makeAPIRequest w =
      requestGo rest
        { w with
          script := rest
          apiCalls := w.apiCalls + pre.length
          refreshes := w.refreshes + pre.length } := by
  induction pre generalizing w with
  | nil =>
    rw [List.nil_append] at hw
    rw [makeAPIRequest, hw]
    congr 1
    obtain ⟨sc, ac, rf, sm, sl, n⟩ := w
    simp only at hw
    subst hw
    simp
  | cons e pre2 ih =>
    obtain ⟨a, b, c, he⟩ := is401_eq e (hpre e (List.mem_cons_self e pre2))
    subst he
    rw [makeAPIRequest, hw, List.cons_append, requestGo]
    simp only [reduceIte]
    have hrec := ih
      { w with script := pre2 ++ rest, apiCalls := w.apiCalls + 1, refreshes := w.refreshes + 1 }
      (fun x hx => hpre x (List.mem_cons_of_mem _ hx)) rfl
    rw [makeAPIRequest] at hrec
    simp only at hrec
    rw [hrec, if_neg (show ¬((401 : Nat) = 429) from by decide)]
    congr 2 <;> · simp only [List.length_cons]; omega

/-- The C3 scenario: two consecutive 401s, then a success. -/
def c3World : World :=
  ⟨[.err 401 0 150 0, .err 401 0 150 0, .ok (.stepsIntraday []) 100 30 150],
    0, 0, [], [], 0⟩

/-- C3 counterexample: with responses 401, 401, 200 the client
refreshes twice and returns the third response's success — it does not
fail with `AuthExpired` after the second 401, and it retries more than
once. -/
theorem makeAPIRequest_second_401_retried_again :
    makeAPIRequest c3World =
      (.ok (.stepsIntraday [], extractRateLimitInfo 100 30 150),
        ⟨[], 3, 2, [], [], 0⟩) ∧
    (makeAPIRequest c3World).2.refreshes = 2 ∧
    ∀ e : JsError, (makeAPIRequest c3World).1 ≠ .error e := by
  refine ⟨by rfl, by rfl, ?_⟩
  intro e
  rw [show (makeAPIRequest c3World).1 =
    .ok (.stepsIntraday [], extractRateLimitInfo 100 30 150) from by rfl]
  intro hcon
  cases hcon

/-- Witness for C3 at the concrete scenario: the two leading 401s are
skipped with two refreshes and two extra request counts. -/
theorem makeAPIRequest_retries_every_401_witness :
    makeAPIRequest c3World =
      requestGo [.ok (.stepsIntraday []) 100 30 150]
        { c3World with
          script := [.ok (.stepsIntraday []) 100 30 150]
          apiCalls := c3World.apiCalls + 2
          refreshes := c3World.refreshes + 2 } :=
  makeAPIRequest_retries_every_401
    [.err 401 0 150 0, .err 401 0 150 0]
    [.ok (.stepsIntraday []) 100 30 150]
    c3World (by decide) rfl

/-- C9 (amended): on HTTP 429 `makeAPIRequest` fails immediately —
one attempt, no retry, no token refresh — with a plain `new Error`
whose only payload is a free-text message embedding used, remaining and
reset seconds; there is no structured `RateLimited` error value, which
is why the `/sync/trigger` route re-parses the message with regexes. -/
theorem makeAPIRequest_429_plain_error (remaining limit resetIn : Nat)
    (rest : List ApiResponse) (w : World)
    (hw : w.script = .err 429 remaining limit resetIn :: rest) :
    makeAPIRequest w =
      (.error (.plain (rateLimitExceededMsg ((limit : Int) - remaining)
        limit remaining resetIn)),
       { w with script := rest, apiCalls := w.apiCalls + 1 }) := by
  rw [makeAPIRequest, hw, requestGo]
  simp only [reduceIte]

/-- The C9 scenario: a single 429 with 3 remaining of 150, reset 120 s. -/
def c9World : World := ⟨[.err 429 3 150 120], 0, 0, [], [], 0⟩

/-- C9 counterexample: the 429 failure value is
`Error("Rate limit exceeded. Used 147/150 requests. 3 remaining.
Resets in 120 seconds")` — the used/remaining/reset fields exist only
inside the message string, not as data fields of the error value. -/
theorem makeAPIRequest_429_message_only :
    makeAPIRequest c9World =
      (.error (.plain ("Rate limit exceeded. Used 147/150 requests. " ++
        "3 remaining. Resets in 120 seconds")),
       ⟨[], 1, 0, [], [], 0⟩) := by
  rfl

/-- Witness for C9 at the concrete scenario. -/
theorem makeAPIRequest_429_plain_error_witness :
    makeAPIRequest c9World =
      (.error (.plain (rateLimitExceededMsg ((150 : Int) - 3) 150 3 120)),
       { c9World with script := [], apiCalls := c9World.apiCalls + 1 }) :=
  makeAPIRequest_429_plain_error 3 150 120 [] c9World rfl

/-! ## SyncOrchestrator: the per-type pipelines, `syncAllData` and
`syncDateRange`

Source: `src/routes/api.js` lines 988-1044 (`syncActivityData`),
1193-1232 (`syncHeartRateData`), 1401-1471 (`syncSleepData`),
1479-1570 (`syncOtherData`), 1579-1633 (`syncAllData`), 1643-1719
(`syncDateRange`). Each pipeline fetches, segments, stores the samples
when there are any, and appends a sync-log row; its catch block appends
an `error` row and rethrows. `update_sync_log` reads the snake_case
fields `reset_in`/`reset_time`, but the pipelines pass the camelCase
`rateLimitInfo` object, so only `remaining` is picked up and the stored
reset timestamp is always NULL — modelled faithfully by `toInfoIn`.
The inter-day 100 ms pause of `syncDateRange` is a pure delay with no
modelled effect. -/

/-- `${dateStr}T${time}` — the datetime string of minute `idx` of a
given day. -/
def dayTs (date : String) (idx : Nat) : String :=
  date ++ "T" ++ toString idx

/-- A steps sample as pushed by `syncActivityData`. -/
def stepSampleToInput (date : String) (s : StepSample) : SampleInput :=
  ⟨"steps", .num s.value, none, some (dayTs date s.datetime),
    none, none, none, none⟩

/-- An active-calorie sample as pushed by `syncActivityData`. -/
def calSampleToInput (date : String) (s : CalSample) : SampleInput :=
  ⟨"activeCalories", .num s.value, none, some (dayTs date s.datetime),
    none, none, none, none⟩

/-- A heart-rate sample as pushed by `syncHeartRateData`. -/
def hrSampleToInput (date : String) (s : HRSample) : SampleInput :=
  ⟨"heartRate", .num (s.value : ℚ), none, some (dayTs date s.datetime),
    none, none, none, none⟩

/-- A sleep-stage sample: datetime is `stage.dateTime + seconds·1000`. -/
def sleepStageToInput (st : String × Nat × Nat) : SampleInput :=
  ⟨"sleepAnalysis", .str st.1, none, some (toString (st.2.1 + st.2.2 * 1000)),
    none, none, none, none⟩

/-- An other-health sample for a given type tag. -/
def otherReadingToInput (ty : String) (r : ℚ × String) : SampleInput :=
  ⟨ty, .num r.1, none, some r.2, none, none, none, none⟩

/-- Run `store_samples` against the world's `samples` table. -/
def storeSamplesW (w : World) (samples : List SampleInput) : World :=
  { w with samples := (store_samples samples w.samples).1 }

/-- Append a sync-log row (`last_sync_time = now.toISOString()`). -/
def logW (w : World) (dt status : String) (info : RateLimitInfoIn)
    (em : Option String) : World :=
  { w with syncLog :=
      update_sync_log w.syncLog w.now dt (toString w.now) status info em }

/-- The camelCase `rateLimitInfo` object seen through the snake_case
field reads of `update_sync_log`: `remaining` matches, `reset_in` and
`reset_time` are undefined. -/
def toInfoIn (rli : RateLimitInfo) : RateLimitInfoIn :=
  ⟨some rli.remaining, none, none⟩

/-- `FitbitService.syncActivityData`: steps fetch → `processStepsData`,
calories fetch → `processCaloriesData` with `bmrPerMinute =
dailyBMR / (24·60)`, store when nonempty, `success` log carrying the
steps response's rate-limit info; any failure (including a TypeError
from an unexpected response shape) is logged as an `error` row and
rethrown. -/
def syncActivityData (w : World) (date : String) : Except JsError Nat × World :=
  match makeAPIRequest w with
  | (.ok (.stepsIntraday ds, rli), w1) =>
    (match makeAPIRequest w1 with
     | (.ok (.caloriesIntraday dailyBMR cds, _), w2) =>
       let bmrPerMinute := dailyBMR.getD 0 / (24 * 60)
       let samples := (processStepsData ds).map (stepSampleToInput date) ++
         (processCaloriesData cds bmrPerMinute).map (calSampleToInput date)
       let w3 := if 0 < samples.length then storeSamplesW w2 samples else w2
       (.ok samples.length, logW w3 "activity" "success" (toInfoIn rli) none)
     | (.ok (_, _), w2) =>
       (.error (.plain "TypeError"),
        logW w2 "activity" "error" ⟨none, none, none⟩ (some "TypeError"))
     | (.error e, w2) =>
       (.error e, logW w2 "activity" "error" ⟨none, none, none⟩ (some e.message)))
  | (.ok (_, _), w1) =>
    (.error (.plain "TypeError"),
     logW w1 "activity" "error" ⟨none, none, none⟩ (some "TypeError"))
  | (.error e, w1) =>
    (.error e, logW w1 "activity" "error" ⟨none, none, none⟩ (some e.message))

/-- `FitbitService.syncHeartRateData` (`?.dataset || []` tolerates a
missing dataset, so a shape mismatch degrades to the empty dataset). -/
def syncHeartRateData (w : World) (date : String) : Except JsError Nat × World :=
  match makeAPIRequest w with
  | (.ok (d, rli), w1) =>
    let ds := match d with
      | .heartIntraday ds => ds
      | _ => []
    let samples := (processHeartRateData ds).map (hrSampleToInput date)
    let w2 := if 0 < samples.length then storeSamplesW w1 samples else w1
    (.ok samples.length, logW w2 "heartrate" "success" (toInfoIn rli) none)
  | (.error e, w1) =>
    (.error e, logW w1 "heartrate" "error" ⟨none, none, none⟩ (some e.message))

/-- `FitbitService.syncSleepData` (`response.data.sleep || []`): one
sample per main stage interval, plus one additional `awake` sample per
short-wake entry whose level is `wake`. -/
def syncSleepData (w : World) : Except JsError Nat × World :=
  match makeAPIRequest w with
  | (.ok (d, rli), w1) =>
    let (stages, wakes) := match d with
      | .sleepLogs s sw => (s, sw)
      | _ => ([], [])
    let samples := stages.map sleepStageToInput ++
      (wakes.filter (fun x => x.1 == "wake")).map
        (fun x => (⟨"sleepAnalysis", .str "awake", none,
          some (toString (x.2.1 + x.2.2 * 1000)), none, none, none,
          none⟩ : SampleInput))
    let w2 := if 0 < samples.length then storeSamplesW w1 samples else w1
    (.ok samples.length, logW w2 "sleep" "success" (toInfoIn rli) none)
  | (.error e, w1) =>
    (.error e, logW w1 "sleep" "error" ⟨none, none, none⟩ (some e.message))

/-- `FitbitService.syncOtherData`: up to three scope-gated fetches
(SpO2, respiratory rate, skin temperature with the 98.6 °F baseline
added); each inner request's failure is swallowed (inner try/catch), a
`success` log row with an empty rate-limit object is always written. -/
def syncOtherData (w : World) (scopes : List String) : Except JsError Nat × World :=
  let p1 := if scopes.contains "oxygen_saturation" then
      match makeAPIRequest w with
      | (.ok (.otherReadings rs, _), w1) =>
        (rs.map (otherReadingToInput "oxygenSaturation"), w1)
      | (.ok (_, _), w1) => ([], w1)
      | (.error _, w1) => ([], w1)
    else ([], w)
  let p2 := if scopes.contains "respiratory_rate" then
      match makeAPIRequest p1.2 with
      | (.ok (.otherReadings rs, _), w1) =>
        (rs.map (otherReadingToInput "respiratoryRate"), w1)
      | (.ok (_, _), w1) => ([], w1)
      | (.error _, w1) => ([], w1)
    else ([], p1.2)
  let p3 := if scopes.contains "temperature" then
      match makeAPIRequest p2.2 with
      | (.ok (.otherReadings rs, _), w1) =>
        (rs.map (fun r => otherReadingToInput "bodyTemperature"
          (493 / 5 + r.1, r.2)), w1)
      | (.ok (_, _), w1) => ([], w1)
      | (.error _, w1) => ([], w1)
    else ([], p2.2)
  let samples := p1.1 ++ p2.1 ++ p3.1
  let w4 := if 0 < samples.length then storeSamplesW p3.2 samples else p3.2
  (.ok samples.length, logW w4 "other_health_data" "success" ⟨none, none, none⟩ none)

/-- The per-type counts returned by a full sync. -/
structure DayResults where
  activity : Option Nat
  heartrate : Option Nat
  sleep : Option Nat
  other : Option Nat
deriving DecidableEq

/-- `!sampleTypes || sampleTypes.includes(t)`. -/
def shouldSync (sampleTypes : Option (List String)) (t : String) : Bool :=
  match sampleTypes with
  | none => true
  | some ts => ts.contains t

/-- Sequential per-day pipeline, fourth stage (other health data). -/
def syncDayOther (w : World) (scopes : List String)
    (types : Option (List String)) (na nh ns : Option Nat) :
    Except JsError DayResults × World :=
  if shouldSync types "other" then
    match syncOtherData w scopes with
    | (.error e, w1) => (.error e, w1)
    | (.ok n, w1) => (.ok ⟨na, nh, ns, some n⟩, w1)
  else (.ok ⟨na, nh, ns, none⟩, w)

/-- Sequential per-day pipeline, third stage (sleep). -/
def syncDaySleep (w : World) (scopes : List String)
    (types : Option (List String)) (na nh : Option Nat) :
    Except JsError DayResults × World :=
  if shouldSync types "sleep" ∧ scopes.contains "sleep" then
    match syncSleepData w with
    | (.error e, w1) => (.error e, w1)
    | (.ok n, w1) => syncDayOther w1 scopes types na nh (some n)
  else syncDayOther w scopes types na nh none

/-- Sequential per-day pipeline, second stage (heart rate). -/
def syncDayHeart (w : World) (scopes : List String)
    (types : Option (List String)) (date : String) (na : Option Nat) :
    Except JsError DayResults × World :=
  if shouldSync types "heartrate" ∧ scopes.contains "heartrate" then
    match syncHeartRateData w date with
    | (.error e, w1) => (.error e, w1)
    | (.ok n, w1) => syncDaySleep w1 scopes types na (some n)
  else syncDaySleep w scopes types na none

/-- The shared per-day body of `syncAllData` and of each iteration of
`syncDateRange`: the four type-gated pipelines in fixed order, short-
circuiting on the first failure (later types are not attempted). -/
def syncDay (w : World) (scopes : List String) (types : Option (List String))
    (date : String) : Except JsError DayResults × World :=
  if shouldSync types "activity" ∧ scopes.contains "activity" then
    match syncActivityData w date with
    | (.error e, w1) => (.error e, w1)
    | (.ok n, w1) => syncDayHeart w1 scopes types date (some n)
  else syncDayHeart w scopes types date none

/-- The `RateLimitTooLow` message of `syncAllData` (without the
locale-rendered reset time suffix). -/
def rateTooLowMsg (remaining reset : Nat) : String :=
  "Rate limit too low: " ++ toString remaining ++
    " requests remaining (need at least 10). Rate limit resets in " ++
    toString reset ++ " seconds"

/-- The `RateLimitTooLow` message of `syncDateRange`. -/
def rangeTooLowMsg (remaining required days reset : Nat) : String :=
  "Rate limit too low: " ++ toString remaining ++
    " requests remaining, need approximately " ++ toString required ++
    " for " ++ toString days ++ " days. Shortfall: " ++
    toString (required - remaining) ++ " requests. Rate limit resets in " ++
    toString reset ++ " seconds"

/-- `FitbitService.syncAllData`: pre-flight check against the ledger's
rate-limit snapshot — below 10 remaining it throws `RateLimitTooLow`
before any fetch, store or log write — then the per-day pipeline. -/
def syncAllData (w : World) (scopes : List String)
    (types : Option (List String)) (date : String) :
    Except JsError DayResults × World :=
  let rls := get_rate_limit_status w.syncLog w.now
  if rls.rate_limit_remaining < 10 then
    (.error (.plain (rateTooLowMsg rls.rate_limit_remaining
      rls.rate_limit_reset)), w)
  else
    syncDay w scopes types date

/-- Total samples of a day's results. -/
def DayResults.total (r : DayResults) : Nat :=
  r.activity.getD 0 + r.heartrate.getD 0 + r.sleep.getD 0 + r.other.getD 0

/-- The per-date loop of `syncDateRange`, short-circuiting on the first
failing day. -/
def syncRangeLoop (scopes : List String) (types : Option (List String)) :
    List String → World →
    Except JsError (List (String × DayResults) × Nat) × World
  | [], w => (.ok ([], 0), w)
  | date :: ds, w =>
    match syncDay w scopes types date with
    | (.error e, w1) => (.error e, w1)
    | (.ok dr, w1) =>
      match syncRangeLoop scopes types ds w1 with
      | (.ok (rs, tot), w2) => (.ok ((date, dr) :: rs, dr.total + tot), w2)
      | (.error e, w2) => (.error e, w2)

/-- The value returned by `syncDateRange`. -/
structure RangeResult where
  results : List (String × DayResults)
  totalSamples : Nat
  datesProcessed : Nat
deriving DecidableEq

/-- `FitbitService.syncDateRange` over an already-validated date list:
pre-flight check requiring `dates.length × 4` remaining requests, then
the per-day pipeline sequentially over the dates. -/
def syncDateRange (w : World) (scopes : List String)
    (types : Option (List String)) (dates : List String) :
    Except JsError RangeResult × World :=
  let rls := get_rate_limit_status w.syncLog w.now
  let required := dates.length * 4
  if rls.rate_limit_remaining < required then
    (.error (.plain (rangeTooLowMsg rls.rate_limit_remaining required
      dates.length rls.rate_limit_reset)), w)
  else
    match syncRangeLoop scopes types dates w with
    | (.ok (rs, tot), w1) => (.ok ⟨rs, tot, dates.length⟩, w1)
    | (.error e, w1) => (.error e, w1)

/-- C4: when the rate-limit snapshot read from the ledger reports fewer
than 10 remaining requests, `syncAllData` fails with the
`RateLimitTooLow` error and leaves the world untouched — zero outbound
API requests, no samples stored, not even a ledger write; and,
independently, `syncDateRange` does the same whenever the snapshot
reports fewer than `days × 4` remaining (each half under its own
condition only). -/
theorem sync_preflight_abort (w : World) (scopes : List String)
    (types : Option (List String)) (date : String) (dates : List String) :
    ((get_rate_limit_status w.syncLog w.now).rate_limit_remaining < 10 →
      syncAllData w scopes types date =
        (.error (.plain (rateTooLowMsg
          (get_rate_limit_status w.syncLog w.now).rate_limit_remaining
          (get_rate_limit_status w.syncLog w.now).rate_limit_reset)), w) ∧
      (syncAllData w scopes types date).2.apiCalls = w.apiCalls ∧
      (syncAllData w scopes types date).2.samples = w.samples) ∧
    ((get_rate_limit_status w.syncLog w.now).rate_limit_remaining <
        dates.length * 4 →
      syncDateRange w scopes types dates =
        (.error (.plain (rangeTooLowMsg
          (get_rate_limit_status w.syncLog w.now).rate_limit_remaining
          (dates.length * 4) dates.length
          (get_rate_limit_status w.syncLog w.now).rate_limit_reset)), w) ∧
      (syncDateRange w scopes types dates).2.apiCalls = w.apiCalls ∧
      (syncDateRange w scopes types dates).2.samples = w.samples) := by
  constructor
  · intro h1
    have hall : syncAllData w scopes types date =
        (.error (.plain (rateTooLowMsg
          (get_rate_limit_status w.syncLog w.now).rate_limit_remaining
          (get_rate_limit_status w.syncLog w.now).rate_limit_reset)), w) := by
      unfold syncAllData
      rw [if_pos h1]
    exact ⟨hall, by rw [hall], by rw [hall]⟩
  · intro h2
    have hrange : syncDateRange w scopes types dates =
        (.error (.plain (rangeTooLowMsg
          (get_rate_limit_status w.syncLog w.now).rate_limit_remaining
          (dates.length * 4) dates.length
          (get_rate_limit_status w.syncLog w.now).rate_limit_reset)), w) := by
      unfold syncDateRange
      rw [if_pos h2]
    exact ⟨hrange, by rw [hrange], by rw [hrange]⟩

/-- A world whose latest ledger row reports 5 remaining requests with no
recorded reset. -/
def lowBudgetWorld : World :=
  ⟨[.ok (.stepsIntraday []) 100 30 150], 0, 0, [],
    [⟨"activity", "t0", "success", some 5, none, none⟩], 0⟩

/-- A world whose latest ledger row reports 100 remaining requests:
enough for a single day (no abort in `syncAllData`) but not for a
30-day range needing 120. -/
def midBudgetWorld : World :=
  ⟨[.ok (.stepsIntraday []) 100 30 150], 0, 0, [],
    [⟨"activity", "t0", "success", some 100, none, none⟩], 0⟩

/-- Witness for C4: with a stored snapshot of 5 remaining a single-day
sync aborts unchanged, and with a stored snapshot of 100 remaining a
30-day range sync (requiring 120) aborts unchanged even though 100 is
not below the single-day minimum of 10. -/
theorem sync_preflight_abort_witness :
    (syncAllData lowBudgetWorld ["activity"] none "2024-01-01" =
      (.error (.plain (rateTooLowMsg 5 0)), lowBudgetWorld) ∧
     (syncAllData lowBudgetWorld ["activity"] none "2024-01-01").2.apiCalls =
       lowBudgetWorld.apiCalls ∧
     (syncAllData lowBudgetWorld ["activity"] none "2024-01-01").2.samples =
       lowBudgetWorld.samples) ∧
    (syncDateRange midBudgetWorld ["activity"] none
        (List.replicate 30 "2024-01-01") =
      (.error (.plain (rangeTooLowMsg 100 120 30 0)), midBudgetWorld) ∧
     (syncDateRange midBudgetWorld ["activity"] none
       (List.replicate 30 "2024-01-01")).2.apiCalls = midBudgetWorld.apiCalls ∧
     (syncDateRange midBudgetWorld ["activity"] none
       (List.replicate 30 "2024-01-01")).2.samples = midBudgetWorld.samples) :=
  ⟨(sync_preflight_abort lowBudgetWorld ["activity"] none "2024-01-01"
      ["2024-01-01"]).1 (by decide),
   (sync_preflight_abort midBudgetWorld ["activity"] none "2024-01-01"
      (List.replicate 30 "2024-01-01")).2 (by decide)⟩

end FitbitSync
